import Mathlib

/-!
Verification of the retrying HTTP request engine in `snscrape/base.py`.

The development shallowly embeds `Scraper._request` (base.py lines 79-123)
as a fuel-based recursion over attempt indices that threads the value of
the Python local `req` (to model its possible unboundedness in the
`for`/`else` exhaustion branch) and records an event trace: one event per
`prepare_request` call, per `send` call, per logging call and per
`time.sleep` call of the source.  The external world (the `requests`
session and the optional `responseOkCallback`) is modelled by oracles:
the outcome of `send` and the URL of the freshly prepared request on each
attempt index.

`functools.cached_property` on `Scraper.entity` (lines 75-77) is embedded
as an explicit cache cell plus a call counter for the underlying
`_get_entity` resolver.
-/

namespace Snscrape

/-- Python `logging` levels used by `_request`. -/
inductive Level
  | DEBUG
  | INFO
  | WARNING
  | ERROR
  | CRITICAL
deriving DecidableEq, Repr

/-- An HTTP response, abstracted to an identifying value (the loop never
inspects the response itself except through the callback). -/
structure Response where
  val : Nat
deriving DecidableEq, Repr

/-- Outcome of `self._session.send(req, ...)` (base.py line 88): either a
`requests.exceptions.RequestException` (modelled by its repr string) or a
response. -/
inductive SendOutcome
  | exc (e : String)
  | ok (r : Response)
deriving DecidableEq, Repr

/-- Oracle model of the `requests.Session`: on attempt index `i`,
`prepUrl i` is the URL of the request freshly prepared by
`prepare_request` (line 82; it may vary with the session's cookie state),
and `sendOutcome i` is what `send` does on that attempt (line 88). -/
structure SessionModel where
  prepUrl : Nat → String
  sendOutcome : Nat → SendOutcome

/-- The explicit parameters of `_request` (base.py line 79).  `method`,
`url`, `params`, `timeout` and `allowRedirects` are consumed only by the
session boundary (absorbed into `SessionModel`); `data` and `headers`
additionally appear in debug logging; `responseOkCallback` is the accept
predicate returning `(success, msg)`. -/
structure RequestArgs where
  method : String
  url : String
  params : Option String
  data : Option String
  headers : Option String
  timeout : Nat
  responseOkCallback : Option (Response → Bool × Option String)
  allowRedirects : Bool

/-- One observable event of `_request`, one constructor per effectful call
site of the source, carrying exactly the data interpolated there. -/
inductive Event
  | prepareRequest (attempt : Nat) (url : String)
  | logRetrieving (url : String)
  | logWithHeaders (headers : Option String)
  | logWithData (data : String)
  | send (attempt : Nat)
  | logRequestError (level : Level) (url : String) (exc : String) (retrying : String)
  | logRetrievedOk (url : String) (msg : String)
  | logRejected (level : Level) (url : String) (msg : String) (retrying : String)
  | logWaiting (secs : Nat)
  | sleep (secs : Nat)
  | logFatal (msg : String)
deriving DecidableEq, Repr

/-- How Python's `for`/`else` construct in `_request` was left: an early
`return r` (line 106), normal completion of the range (which triggers the
`else` clause, lines 119-122), or a `break` (which would skip the `else`
and fall through to the `raise RuntimeError` at line 123; the body
contains no `break`, which is what claim C8 is about). -/
inductive LoopExit
  | returned (r : Response)
  | completed
  | broke
deriving Repr

/-- Result of the loop: how it exited, the final value of the Python
local `req` (its URL; `none` = never bound), and the event trace. -/
structure LoopOut where
  exit : LoopExit
  reqUrl : Option String
  events : List Event

/-- Python truthiness of an optional string (`None` and `''` are falsy). -/
def truthy : Option String → Bool
  | none => false
  | some s => !(s == "")

/-- Line 102: `msg = f': {msg}' if msg else ''`. -/
def msgSuffix : Option String → String
  | none => ""
  | some s => if s == "" then "" else ": " ++ s

/-- Lines 98-101: evaluate `responseOkCallback` on the response, defaulting
to `(True, None)` when no callback was supplied. -/
def evalCallback (cb : Option (Response → Bool × Option String)) (r : Response) :
    Bool × Option String :=
  match cb with
  | some f => f r
  | none => (true, none)

/-- Events emitted at the top of each loop iteration, lines 82-88:
prepare the request, the `Retrieving` info log, the headers debug log,
the data debug log when `data` is truthy, and the send itself. -/
def attemptEvents (sess : SessionModel) (args : RequestArgs) (attempt : Nat) : List Event :=
  [Event.prepareRequest attempt (sess.prepUrl attempt),
   Event.logRetrieving (sess.prepUrl attempt),
   Event.logWithHeaders args.headers] ++
  (if truthy args.data then [Event.logWithData (args.data.getD "")] else []) ++
  [Event.send attempt]

/-- Lines 115-118: when more attempts remain (`attempt < self._retries`),
log the wait and sleep `1.0 * 2**attempt` seconds (exact, so `2^attempt`). -/
def backoffEvents (retries : Int) (attempt : Nat) : List Event :=
  if (attempt : Int) < retries then
    [Event.logWaiting (2 ^ attempt), Event.sleep (2 ^ attempt)]
  else []

/-- The retry loop of `_request` (lines 80-118), by recursion on the
remaining number of iterations (`fuel`): `requestLoop sess args retries
fuel attempt lastUrl` runs iterations `attempt, attempt+1, ...` while
fuel lasts, where `lastUrl` is the current value of the local `req`
(its URL) from previous iterations. -/
def requestLoop (sess : SessionModel) (args : RequestArgs) (retries : Int) :
    Nat → Nat → Option String → LoopOut
  | 0, _, lastUrl => ⟨LoopExit.completed, lastUrl, []⟩
  | fuel + 1, attempt, _ =>
    let url := sess.prepUrl attempt
    let retrying := if (attempt : Int) < retries then ", retrying" else ""
    let level := if (attempt : Int) < retries then Level.WARNING else Level.ERROR
    match sess.sendOutcome attempt with
    | SendOutcome.exc e =>
      let rest := requestLoop sess args retries fuel (attempt + 1) (some url)
      ⟨rest.exit, rest.reqUrl,
        attemptEvents sess args attempt ++ [Event.logRequestError level url e retrying]
          ++ backoffEvents retries attempt ++ rest.events⟩
    | SendOutcome.ok r =>
      let sm := evalCallback args.responseOkCallback r
      let ms := msgSuffix sm.2
      if sm.1 then
        ⟨LoopExit.returned r, some url,
          attemptEvents sess args attempt ++ [Event.logRetrievedOk url ms]⟩
      else
        let rest := requestLoop sess args retries fuel (attempt + 1) (some url)
        ⟨rest.exit, rest.reqUrl,
          attemptEvents sess args attempt ++ [Event.logRejected level url ms retrying]
            ++ backoffEvents retries attempt ++ rest.events⟩

/-- Line 120: `f'{self._retries + 1} requests to {req.url} failed, giving up.'` -/
def mkFailMsg (retries : Int) (url : String) : String :=
  toString (retries + 1) ++ " requests to " ++ url ++ " failed, giving up."

/-- How `_request` terminates: the returned response, the
`ScraperException` of the `else` clause (line 122), the `NameError` Python
raises at line 120 if the loop body never ran and `req` is unbound, or the
`RuntimeError` of line 123. -/
inductive ReqResult
  | response (r : Response)
  | scraperException (msg : String)
  | nameError
  | runtimeError (msg : String)
deriving DecidableEq, Repr

/-- `Scraper._request` (base.py lines 79-123).  The loop runs over
`range(self._retries + 1)`, which has `(retries + 1).toNat` elements
(`retries` is an `Int`: the constructor does not validate it).  On normal
completion the `for`/`else` clause builds the failure message — raising
`NameError` if `req` was never bound — logs it fatally and raises
`ScraperException`; a `break` exit (which cannot happen) would fall
through to line 123's `RuntimeError`. -/
def «_request» (retries : Int) (sess : SessionModel) (args : RequestArgs) :
    ReqResult × List Event :=
  let out := requestLoop sess args retries (retries + 1).toNat 0 none
  match out.exit with
  | LoopExit.returned r => (ReqResult.response r, out.events)
  | LoopExit.completed =>
    match out.reqUrl with
    | none => (ReqResult.nameError, out.events)
    | some url =>
      (ReqResult.scraperException (mkFailMsg retries url),
       out.events ++ [Event.logFatal (mkFailMsg retries url)])
  | LoopExit.broke => (ReqResult.runtimeError "Reached unreachable code", out.events)

/-- Attempt `i` fails: either `send` raises, or the callback rejects the
response (lines 89 and 107). -/
def attemptFails (sess : SessionModel) (args : RequestArgs) (i : Nat) : Bool :=
  match sess.sendOutcome i with
  | SendOutcome.exc _ => true
  | SendOutcome.ok r => !(evalCallback args.responseOkCallback r).1

/-- Is an event a send? -/
def isSendEv : Event → Bool
  | Event.send _ => true
  | _ => false

/-- Number of send events in a trace. -/
def sendCount (tr : List Event) : Nat :=
  tr.countP isSendEv

/-- The duration of a sleep event. -/
def slpEv : Event → Option Nat
  | Event.sleep s => some s
  | _ => none

/-- The durations of the sleep events of a trace, in order. -/
def sleepList (tr : List Event) : List Nat :=
  tr.filterMap slpEv

/-- Send/sleep skeleton events, for stating where sleeps sit between
attempts. -/
inductive SSEv
  | snd (i : Nat)
  | slp (d : Nat)
deriving DecidableEq, Repr

/-- Send/sleep view of one event. -/
def ssEv : Event → Option SSEv
  | Event.send i => some (SSEv.snd i)
  | Event.sleep d => some (SSEv.slp d)
  | _ => none

/-- Projection of a trace to its send and sleep events. -/
def ssProj (tr : List Event) : List SSEv :=
  tr.filterMap ssEv

/-- The send/sleep skeleton of a run of `c` consecutive attempts starting
at index `a`: a sleep of `2^i` seconds sits between the sends of attempts
`i` and `i+1`, with no sleep before the first send or after the last. -/
def ssShape : Nat → Nat → List SSEv
  | _, 0 => []
  | a, c + 1 =>
    SSEv.snd a :: ((if c = 0 then [] else [SSEv.slp (2 ^ a)]) ++ ssShape (a + 1) c)

/-- The sleep duration of a send/sleep skeleton event. -/
def slpOf : SSEv → Option Nat
  | SSEv.slp d => some d
  | _ => none

/-- Prepare/send skeleton events, for stating that each attempt freshly
prepares its request. -/
inductive PSEv
  | prep (i : Nat) (url : String)
  | snd (i : Nat)
deriving DecidableEq, Repr

/-- Prepare/send view of one event. -/
def psEv : Event → Option PSEv
  | Event.prepareRequest i u => some (PSEv.prep i u)
  | Event.send i => some (PSEv.snd i)
  | _ => none

/-- Projection of a trace to its prepare and send events. -/
def psProj (tr : List Event) : List PSEv :=
  tr.filterMap psEv

/-- The prepare/send skeleton of a run of `c` consecutive attempts
starting at index `a`: each attempt prepares exactly one fresh request
(against the current session state) immediately before its send. -/
def psShape (sess : SessionModel) : Nat → Nat → List PSEv
  | _, 0 => []
  | a, c + 1 =>
    PSEv.prep a (sess.prepUrl a) :: PSEv.snd a :: psShape sess (a + 1) c

/-- The number of loop iterations (send attempts) `requestLoop` performs
when started at attempt `a` with the given fuel: it consumes attempts as
long as they fail and stops at the first accepted one. -/
def attemptsRun (sess : SessionModel) (args : RequestArgs) (a : Nat) : Nat → Nat
  | 0 => 0
  | fuel + 1 =>
    if attemptFails sess args a then 1 + attemptsRun sess args (a + 1) fuel else 1

/-!  ## The cached entity accessor

`Scraper.entity` (base.py lines 75-77) is `functools.cached_property`
over `_get_entity`.  The resolver is an oracle indexed by how many times
it has been invoked so far (Python's `_get_entity` takes no arguments but
may behave differently across calls); it returns either an entity value
(`Option Nat`, since `_get_entity` may return `None`) or a raised
exception (`Except.error`). -/

/-- The memoisation state `functools.cached_property` keeps in the
instance `__dict__`, plus a counter of resolver invocations. -/
structure EntityState where
  entityCache : Option (Option Nat)
  resolveCalls : Nat
deriving DecidableEq, Repr

/-- A freshly constructed `Scraper`: nothing cached, resolver never run. -/
def initEntityState : EntityState := ⟨none, 0⟩

/-- One read of the `entity` property: `functools.cached_property` returns
the cached value if present; otherwise it invokes the resolver, stores the
result on success (including `None`), and propagates an exception without
storing anything. -/
def entityRead (resolve : Nat → Except String (Option Nat)) (s : EntityState) :
    Except String (Option Nat) × EntityState :=
  match s.entityCache with
  | some v => (Except.ok v, s)
  | none =>
    match resolve s.resolveCalls with
    | Except.ok v => (Except.ok v, ⟨some v, s.resolveCalls + 1⟩)
    | Except.error e => (Except.error e, ⟨none, s.resolveCalls + 1⟩)

/-- `n` successive reads of the `entity` property, returning the results
in order plus the final state. -/
def entityReadN (resolve : Nat → Except String (Option Nat)) :
    Nat → EntityState → List (Except String (Option Nat)) × EntityState
  | 0, s => ([], s)
  | n + 1, s =>
    let first := entityRead resolve s
    let rest := entityReadN resolve n first.2
    (first.1 :: rest.1, rest.2)

/-- `Scraper._get_entity` (base.py lines 69-73): the default resolver of a
subclass that does not override it simply returns `None`, on every call. -/
def «_get_entity» : Nat → Except String (Option Nat) :=
  fun _ => Except.ok none

/-! ## Concrete environments (used to instantiate theorems with
hypotheses) -/

/-- A session whose every send raises a transport error. -/
def sessExcAll : SessionModel :=
  ⟨fun i => String.append "http://example.com/" (toString i),
   fun _ => SendOutcome.exc "ConnectionError"⟩

/-- A session that raises transport errors on attempts below `k` and
returns a response from attempt `k` on. -/
def sessOkAt (k : Nat) : SessionModel :=
  ⟨fun i => String.append "http://example.com/" (toString i),
   fun i => if i < k then SendOutcome.exc "Timeout" else SendOutcome.ok ⟨42⟩⟩

/-- A session whose every send returns a response. -/
def sessOkAll : SessionModel :=
  ⟨fun _ => "http://example.com/", fun _ => SendOutcome.ok ⟨7⟩⟩

/-- Plain request arguments: no data, no headers, no accept callback. -/
def argsPlain : RequestArgs :=
  ⟨"GET", "http://example.com/", none, none, none, 10, none, true⟩

/-- Request arguments whose accept callback rejects every response with a
reason. -/
def argsRejectAll : RequestArgs :=
  ⟨"GET", "http://example.com/", none, none, none, 10,
   some (fun _ => (false, some "rate limited")), true⟩

/-! ## Trace projection lemmas -/

lemma ssProj_append (l1 l2 : List Event) :
    ssProj (l1 ++ l2) = ssProj l1 ++ ssProj l2 := by
  simp [ssProj]

lemma psProj_append (l1 l2 : List Event) :
    psProj (l1 ++ l2) = psProj l1 ++ psProj l2 := by
  simp [psProj]

lemma sleepList_append (l1 l2 : List Event) :
    sleepList (l1 ++ l2) = sleepList l1 ++ sleepList l2 := by
  simp [sleepList]

lemma sendCount_append (l1 l2 : List Event) :
    sendCount (l1 ++ l2) = sendCount l1 + sendCount l2 := by
  simp [sendCount]

lemma ssProj_attemptEvents (sess : SessionModel) (args : RequestArgs) (a : Nat) :
    ssProj (attemptEvents sess args a) = [SSEv.snd a] := by
  unfold attemptEvents ssProj
  cases truthy args.data <;> simp [ssEv]

lemma psProj_attemptEvents (sess : SessionModel) (args : RequestArgs) (a : Nat) :
    psProj (attemptEvents sess args a) = [PSEv.prep a (sess.prepUrl a), PSEv.snd a] := by
  unfold attemptEvents psProj
  cases truthy args.data <;> simp [psEv]

lemma sendCount_attemptEvents (sess : SessionModel) (args : RequestArgs) (a : Nat) :
    sendCount (attemptEvents sess args a) = 1 := by
  unfold attemptEvents sendCount
  cases truthy args.data <;> simp [isSendEv]

lemma sleepList_attemptEvents (sess : SessionModel) (args : RequestArgs) (a : Nat) :
    sleepList (attemptEvents sess args a) = [] := by
  unfold attemptEvents sleepList
  cases truthy args.data <;> simp [slpEv]

lemma ssProj_backoffEvents (retries : Int) (a : Nat) :
    ssProj (backoffEvents retries a) =
      if (a : Int) < retries then [SSEv.slp (2 ^ a)] else [] := by
  unfold backoffEvents ssProj
  split <;> simp [ssEv]

lemma psProj_backoffEvents (retries : Int) (a : Nat) :
    psProj (backoffEvents retries a) = [] := by
  unfold backoffEvents psProj
  split <;> simp [psEv]

lemma sendCount_backoffEvents (retries : Int) (a : Nat) :
    sendCount (backoffEvents retries a) = 0 := by
  unfold backoffEvents sendCount
  split <;> simp [isSendEv]

lemma sleepList_backoffEvents (retries : Int) (a : Nat) :
    sleepList (backoffEvents retries a) =
      if (a : Int) < retries then [2 ^ a] else [] := by
  unfold backoffEvents sleepList
  split <;> simp [slpEv]

lemma ssProj_cons_logRequestError (l : Level) (u e r : String) (tl : List Event) :
    ssProj (Event.logRequestError l u e r :: tl) = ssProj tl := by
  simp [ssProj, List.filterMap_cons, ssEv]

lemma ssProj_cons_logRejected (l : Level) (u m r : String) (tl : List Event) :
    ssProj (Event.logRejected l u m r :: tl) = ssProj tl := by
  simp [ssProj, List.filterMap_cons, ssEv]

lemma ssProj_cons_logRetrievedOk (u m : String) (tl : List Event) :
    ssProj (Event.logRetrievedOk u m :: tl) = ssProj tl := by
  simp [ssProj, List.filterMap_cons, ssEv]

lemma ssProj_cons_logFatal (m : String) (tl : List Event) :
    ssProj (Event.logFatal m :: tl) = ssProj tl := by
  simp [ssProj, List.filterMap_cons, ssEv]

lemma psProj_cons_logRequestError (l : Level) (u e r : String) (tl : List Event) :
    psProj (Event.logRequestError l u e r :: tl) = psProj tl := by
  simp [psProj, List.filterMap_cons, psEv]

lemma psProj_cons_logRejected (l : Level) (u m r : String) (tl : List Event) :
    psProj (Event.logRejected l u m r :: tl) = psProj tl := by
  simp [psProj, List.filterMap_cons, psEv]

lemma psProj_cons_logRetrievedOk (u m : String) (tl : List Event) :
    psProj (Event.logRetrievedOk u m :: tl) = psProj tl := by
  simp [psProj, List.filterMap_cons, psEv]

lemma psProj_cons_logFatal (m : String) (tl : List Event) :
    psProj (Event.logFatal m :: tl) = psProj tl := by
  simp [psProj, List.filterMap_cons, psEv]

lemma sendCount_cons_logRequestError (l : Level) (u e r : String) (tl : List Event) :
    sendCount (Event.logRequestError l u e r :: tl) = sendCount tl := by
  simp [sendCount, List.countP_cons, isSendEv]

lemma sendCount_cons_logRejected (l : Level) (u m r : String) (tl : List Event) :
    sendCount (Event.logRejected l u m r :: tl) = sendCount tl := by
  simp [sendCount, List.countP_cons, isSendEv]

lemma sendCount_cons_logRetrievedOk (u m : String) (tl : List Event) :
    sendCount (Event.logRetrievedOk u m :: tl) = sendCount tl := by
  simp [sendCount, List.countP_cons, isSendEv]

lemma sendCount_cons_logFatal (m : String) (tl : List Event) :
    sendCount (Event.logFatal m :: tl) = sendCount tl := by
  simp [sendCount, List.countP_cons, isSendEv]

lemma sleepList_cons_logRequestError (l : Level) (u e r : String) (tl : List Event) :
    sleepList (Event.logRequestError l u e r :: tl) = sleepList tl := by
  simp [sleepList, List.filterMap_cons, slpEv]

lemma sleepList_cons_logRejected (l : Level) (u m r : String) (tl : List Event) :
    sleepList (Event.logRejected l u m r :: tl) = sleepList tl := by
  simp [sleepList, List.filterMap_cons, slpEv]

lemma sleepList_cons_logRetrievedOk (u m : String) (tl : List Event) :
    sleepList (Event.logRetrievedOk u m :: tl) = sleepList tl := by
  simp [sleepList, List.filterMap_cons, slpEv]

lemma sleepList_cons_logFatal (m : String) (tl : List Event) :
    sleepList (Event.logFatal m :: tl) = sleepList tl := by
  simp [sleepList, List.filterMap_cons, slpEv]

/-! ## Characterisation of the retry loop -/

lemma attemptsRun_pos (sess : SessionModel) (args : RequestArgs) (a f : Nat) :
    1 ≤ attemptsRun sess args a (f + 1) := by
  unfold attemptsRun
  split <;> omega

/-- Each loop iteration prepares exactly one fresh request right before
its send: the prepare/send projection of the loop's trace is the
`psShape` skeleton. -/
lemma requestLoop_psProj (sess : SessionModel) (args : RequestArgs) (retries : Int) :
    ∀ (f a : Nat) (u : Option String),
      psProj (requestLoop sess args retries f a u).events =
        psShape sess a (attemptsRun sess args a f) := by
  intro f
  induction f with
  | zero => intro a u; simp [requestLoop, attemptsRun, psProj, psShape]
  | succ f ih =>
    intro a u
    cases hs : sess.sendOutcome a with
    | exc e =>
      have hfail : attemptFails sess args a = true := by
        simp [attemptFails, hs]
      simp only [requestLoop, hs, attemptsRun, hfail, if_pos]
      rw [Nat.add_comm 1 (attemptsRun sess args (a + 1) f)]
      simp only [List.append_assoc, List.singleton_append, psProj_append,
        psProj_attemptEvents, psProj_cons_logRequestError, psProj_backoffEvents,
        List.nil_append, ih, psShape]
      simp
    | ok r =>
      cases hc : (evalCallback args.responseOkCallback r).1 with
      | true =>
        have hfail : attemptFails sess args a = false := by
          simp [attemptFails, hs, hc]
        simp only [requestLoop, hs, attemptsRun, hfail, Bool.false_eq_true, if_neg,
          not_false_eq_true, hc, if_true]
        simp only [List.append_assoc, List.singleton_append, psProj_append,
          psProj_attemptEvents, psProj_cons_logRetrievedOk, psShape]
        simp [psProj]
      | false =>
        have hfail : attemptFails sess args a = true := by
          simp [attemptFails, hs, hc]
        simp only [requestLoop, hs, attemptsRun, hfail, if_pos, hc, Bool.false_eq_true,
          if_false]
        rw [Nat.add_comm 1 (attemptsRun sess args (a + 1) f)]
        simp only [List.append_assoc, List.singleton_append, psProj_append,
          psProj_attemptEvents, psProj_cons_logRejected, psProj_backoffEvents,
          List.nil_append, ih, psShape]
        simp

/-- The loop sends exactly `attemptsRun` requests. -/
lemma requestLoop_sendCount (sess : SessionModel) (args : RequestArgs) (retries : Int) :
    ∀ (f a : Nat) (u : Option String),
      sendCount (requestLoop sess args retries f a u).events =
        attemptsRun sess args a f := by
  intro f
  induction f with
  | zero => intro a u; simp [requestLoop, attemptsRun, sendCount]
  | succ f ih =>
    intro a u
    cases hs : sess.sendOutcome a with
    | exc e =>
      have hfail : attemptFails sess args a = true := by
        simp [attemptFails, hs]
      simp only [requestLoop, hs, attemptsRun, hfail, if_pos]
      simp only [List.append_assoc, List.singleton_append, sendCount_append,
        sendCount_attemptEvents, sendCount_cons_logRequestError,
        sendCount_backoffEvents, ih]
      omega
    | ok r =>
      cases hc : (evalCallback args.responseOkCallback r).1 with
      | true =>
        have hfail : attemptFails sess args a = false := by
          simp [attemptFails, hs, hc]
        simp only [requestLoop, hs, attemptsRun, hfail, Bool.false_eq_true, if_neg,
          not_false_eq_true, hc, if_true]
        simp only [List.append_assoc, List.singleton_append, sendCount_append,
          sendCount_attemptEvents, sendCount_cons_logRetrievedOk]
        simp [sendCount]
      | false =>
        have hfail : attemptFails sess args a = true := by
          simp [attemptFails, hs, hc]
        simp only [requestLoop, hs, attemptsRun, hfail, if_pos, hc, Bool.false_eq_true,
          if_false]
        simp only [List.append_assoc, List.singleton_append, sendCount_append,
          sendCount_attemptEvents, sendCount_cons_logRejected,
          sendCount_backoffEvents, ih]
        omega

/-- The loop body contains no `break`: Python's `for`/`else` construct
can only be left by the early `return` or by normal completion. -/
lemma requestLoop_exit_cases (sess : SessionModel) (args : RequestArgs) (retries : Int) :
    ∀ (f a : Nat) (u : Option String),
      (∃ r, (requestLoop sess args retries f a u).exit = LoopExit.returned r) ∨
      (requestLoop sess args retries f a u).exit = LoopExit.completed := by
  intro f
  induction f with
  | zero => intro a u; right; simp [requestLoop]
  | succ f ih =>
    intro a u
    cases hs : sess.sendOutcome a with
    | exc e =>
      simp only [requestLoop, hs]
      exact ih (a + 1) (some (sess.prepUrl a))
    | ok r =>
      cases hc : (evalCallback args.responseOkCallback r).1 with
      | true =>
        left
        refine ⟨r, ?_⟩
        simp only [requestLoop, hs, hc, if_true]
      | false =>
        simp only [requestLoop, hs, hc, Bool.false_eq_true, if_false]
        exact ih (a + 1) (some (sess.prepUrl a))

/-- Once the loop has run at least one iteration (or `req` was already
bound), the local `req` is bound after the loop. -/
lemma requestLoop_reqUrl_isSome (sess : SessionModel) (args : RequestArgs)
    (retries : Int) :
    ∀ (f a : Nat) (u : Option String), 1 ≤ f ∨ u.isSome = true →
      ((requestLoop sess args retries f a u).reqUrl).isSome = true := by
  intro f
  induction f with
  | zero =>
    intro a u h
    rcases h with h | h
    · omega
    · simpa [requestLoop] using h
  | succ f ih =>
    intro a u _
    cases hs : sess.sendOutcome a with
    | exc e =>
      simp only [requestLoop, hs]
      exact ih (a + 1) (some (sess.prepUrl a)) (Or.inr rfl)
    | ok r =>
      cases hc : (evalCallback args.responseOkCallback r).1 with
      | true =>
        simp only [requestLoop, hs, hc, if_true, Option.isSome_some]
      | false =>
        simp only [requestLoop, hs, hc, Bool.false_eq_true, if_false]
        exact ih (a + 1) (some (sess.prepUrl a)) (Or.inr rfl)

/-- Send/sleep skeleton of the loop trace: provided the fuel matches the
source's `range(self._retries + 1)` window (the invariant
`a + f = retries + 1`), a sleep of `2^i` seconds sits exactly between the
sends of consecutive attempts `i` and `i + 1`, and nowhere else. -/
lemma requestLoop_ssProj (sess : SessionModel) (args : RequestArgs) (retries : Int) :
    ∀ (f a : Nat) (u : Option String), (a : Int) + (f : Int) = retries + 1 →
      ssProj (requestLoop sess args retries f a u).events =
        ssShape a (attemptsRun sess args a f) := by
  intro f
  induction f with
  | zero => intro a u _; simp [requestLoop, attemptsRun, ssProj, ssShape]
  | succ f ih =>
    intro a u hinv
    have hinv' : (a : Int) + (f : Int) = retries := by push_cast at hinv ⊢; omega
    cases hs : sess.sendOutcome a with
    | exc e =>
      have hfail : attemptFails sess args a = true := by
        simp [attemptFails, hs]
      simp only [requestLoop, hs, attemptsRun, hfail, if_pos]
      rcases Nat.eq_zero_or_pos f with hf | hf
      · subst hf
        have hnlt : ¬ ((a : Int) < retries) := by omega
        simp only [List.append_assoc, List.singleton_append, ssProj_append,
          ssProj_attemptEvents, ssProj_cons_logRequestError, ssProj_backoffEvents,
          if_neg hnlt, requestLoop, attemptsRun]
        simp [ssProj, ssShape]
      · have hlt : (a : Int) < retries := by
          have : (1 : Int) ≤ (f : Int) := by exact_mod_cast hf
          omega
        have hc1 : 1 ≤ attemptsRun sess args (a + 1) f := by
          rcases Nat.exists_eq_succ_of_ne_zero (Nat.pos_iff_ne_zero.mp hf) with ⟨f', rfl⟩
          exact attemptsRun_pos sess args (a + 1) f'
        rw [Nat.add_comm 1 (attemptsRun sess args (a + 1) f)]
        have hrec : ssProj (requestLoop sess args retries f (a + 1)
            (some (sess.prepUrl a))).events =
            ssShape (a + 1) (attemptsRun sess args (a + 1) f) := by
          apply ih
          push_cast
          omega
        simp only [List.append_assoc, List.singleton_append, ssProj_append,
          ssProj_attemptEvents, ssProj_cons_logRequestError, ssProj_backoffEvents,
          if_pos hlt, hrec, ssShape, List.nil_append]
        have hne : attemptsRun sess args (a + 1) f ≠ 0 := by omega
        simp [hne]
    | ok r =>
      cases hc : (evalCallback args.responseOkCallback r).1 with
      | true =>
        have hfail : attemptFails sess args a = false := by
          simp [attemptFails, hs, hc]
        simp only [requestLoop, hs, attemptsRun, hfail, Bool.false_eq_true, if_neg,
          not_false_eq_true, hc, if_true]
        simp only [List.append_assoc, List.singleton_append, ssProj_append,
          ssProj_attemptEvents, ssProj_cons_logRetrievedOk, ssShape]
        simp [ssProj]
      | false =>
        have hfail : attemptFails sess args a = true := by
          simp [attemptFails, hs, hc]
        simp only [requestLoop, hs, attemptsRun, hfail, if_pos, hc, Bool.false_eq_true,
          if_false]
        rcases Nat.eq_zero_or_pos f with hf | hf
        · subst hf
          have hnlt : ¬ ((a : Int) < retries) := by omega
          simp only [List.append_assoc, List.singleton_append, ssProj_append,
            ssProj_attemptEvents, ssProj_cons_logRejected, ssProj_backoffEvents,
            if_neg hnlt, requestLoop, attemptsRun]
          simp [ssProj, ssShape]
        · have hlt : (a : Int) < retries := by
            have : (1 : Int) ≤ (f : Int) := by exact_mod_cast hf
            omega
          have hc1 : 1 ≤ attemptsRun sess args (a + 1) f := by
            rcases Nat.exists_eq_succ_of_ne_zero (Nat.pos_iff_ne_zero.mp hf) with ⟨f', rfl⟩
            exact attemptsRun_pos sess args (a + 1) f'
          rw [Nat.add_comm 1 (attemptsRun sess args (a + 1) f)]
          have hrec : ssProj (requestLoop sess args retries f (a + 1)
              (some (sess.prepUrl a))).events =
              ssShape (a + 1) (attemptsRun sess args (a + 1) f) := by
            apply ih
            push_cast
            omega
          simp only [List.append_assoc, List.singleton_append, ssProj_append,
            ssProj_attemptEvents, ssProj_cons_logRejected, ssProj_backoffEvents,
            if_pos hlt, hrec, ssShape, List.nil_append]
          have hne : attemptsRun sess args (a + 1) f ≠ 0 := by omega
          simp [hne]

/-- When every attempt in the window fails, the loop consumes all its
fuel. -/
lemma attemptsRun_allFail (sess : SessionModel) (args : RequestArgs) :
    ∀ (f a : Nat), (∀ i, a ≤ i → i < a + f → attemptFails sess args i = true) →
      attemptsRun sess args a f = f := by
  intro f
  induction f with
  | zero => intro a _; rfl
  | succ f ih =>
    intro a h
    have ha : attemptFails sess args a = true := h a (Nat.le_refl a) (by omega)
    simp only [attemptsRun, ha, if_pos]
    rw [ih (a + 1) (fun i h1 h2 => h i (by omega) (by omega))]
    omega

/-- When every attempt in the window fails, the loop completes normally
and `req` holds the request prepared on the last iteration. -/
lemma requestLoop_allFail (sess : SessionModel) (args : RequestArgs) (retries : Int) :
    ∀ (f a : Nat) (u : Option String),
      (∀ i, a ≤ i → i < a + f → attemptFails sess args i = true) →
      (requestLoop sess args retries f a u).exit = LoopExit.completed ∧
      (requestLoop sess args retries f a u).reqUrl =
        (if f = 0 then u else some (sess.prepUrl (a + f - 1))) := by
  intro f
  induction f with
  | zero => intro a u _; simp [requestLoop]
  | succ f ih =>
    intro a u h
    have ha : attemptFails sess args a = true := h a (Nat.le_refl a) (by omega)
    have hrest := ih (a + 1) (some (sess.prepUrl a))
      (fun i h1 h2 => h i (by omega) (by omega))
    have hurl : (if f = 0 then some (sess.prepUrl a)
        else some (sess.prepUrl (a + 1 + f - 1))) =
        some (sess.prepUrl (a + (f + 1) - 1)) := by
      rcases Nat.eq_zero_or_pos f with hf | hf
      · subst hf; simp
      · rw [if_neg (by omega)]
        congr 2
        omega
    cases hs : sess.sendOutcome a with
    | exc e =>
      simp only [requestLoop, hs]
      refine ⟨hrest.1, ?_⟩
      rw [hrest.2, hurl, if_neg (by omega)]
    | ok r =>
      cases hc : (evalCallback args.responseOkCallback r).1 with
      | true =>
        exfalso
        simp [attemptFails, hs, hc] at ha
      | false =>
        simp only [requestLoop, hs, hc, Bool.false_eq_true, if_false]
        refine ⟨hrest.1, ?_⟩
        rw [hrest.2, hurl, if_neg (by omega)]

/-- When the first `k - a` attempts fail and attempt `k` is sent
successfully and accepted, the loop returns that response after exactly
`k - a + 1` iterations. -/
lemma requestLoop_success (sess : SessionModel) (args : RequestArgs) (retries : Int) :
    ∀ (f a : Nat) (u : Option String) (k : Nat) (r : Response),
      a ≤ k → k < a + f →
      (∀ i, a ≤ i → i < k → attemptFails sess args i = true) →
      sess.sendOutcome k = SendOutcome.ok r →
      (evalCallback args.responseOkCallback r).1 = true →
      (requestLoop sess args retries f a u).exit = LoopExit.returned r ∧
      attemptsRun sess args a f = (k - a) + 1 := by
  intro f
  induction f with
  | zero => intro a u k r h1 h2 _ _ _; omega
  | succ f ih =>
    intro a u k r hak hkf hfails hk hacc
    by_cases hake : a = k
    · subst hake
      have hfail : attemptFails sess args a = false := by
        simp [attemptFails, hk, hacc]
      constructor
      · simp only [requestLoop, hk, hacc, if_true]
      · simp [attemptsRun, hfail]
    · have halt : a < k := Nat.lt_of_le_of_ne hak hake
      have ha : attemptFails sess args a = true := hfails a (Nat.le_refl a) halt
      have hrest := ih (a + 1) (some (sess.prepUrl a)) k r (by omega) (by omega)
        (fun i h1 h2 => hfails i (by omega) h2) hk hacc
      cases hs : sess.sendOutcome a with
      | exc e =>
        refine ⟨?_, ?_⟩
        · simp only [requestLoop, hs]
          exact hrest.1
        · simp only [attemptsRun, ha, if_pos, hrest.2]
          omega
      | ok r0 =>
        cases hc : (evalCallback args.responseOkCallback r0).1 with
        | true =>
          exfalso
          simp [attemptFails, hs, hc] at ha
        | false =>
          refine ⟨?_, ?_⟩
          · simp only [requestLoop, hs, hc, Bool.false_eq_true, if_false]
            exact hrest.1
          · simp only [attemptsRun, ha, if_pos, hrest.2]
            omega

lemma sleepList_eq_ssProj (tr : List Event) :
    sleepList tr = (ssProj tr).filterMap slpOf := by
  unfold sleepList ssProj
  rw [List.filterMap_filterMap]
  congr 1
  funext e
  cases e <;> rfl

lemma ssShape_sleeps :
    ∀ (c a : Nat), (ssShape a c).filterMap slpOf =
      (List.range' a (c - 1)).map (fun i => 2 ^ i) := by
  intro c
  induction c with
  | zero => intro a; simp [ssShape]
  | succ c ih =>
    intro a
    rcases Nat.eq_zero_or_pos c with hc | hc
    · subst hc
      simp [ssShape, slpOf]
    · rw [ssShape, if_neg (by omega)]
      rcases Nat.exists_eq_succ_of_ne_zero (Nat.pos_iff_ne_zero.mp hc) with ⟨c', rfl⟩
      simp only [List.filterMap_cons, List.filterMap_append, slpOf, ih]
      simp [List.range'_succ, slpOf]

/-- Congruence: the number of iterations depends only on which attempts
fail, not on how they fail. -/
lemma attemptsRun_congr (sess1 : SessionModel) (args1 : RequestArgs)
    (sess2 : SessionModel) (args2 : RequestArgs) :
    ∀ (f a : Nat),
      (∀ i, a ≤ i → i < a + f → attemptFails sess1 args1 i = attemptFails sess2 args2 i) →
      attemptsRun sess1 args1 a f = attemptsRun sess2 args2 a f := by
  intro f
  induction f with
  | zero => intro a _; rfl
  | succ f ih =>
    intro a h
    have ha := h a (Nat.le_refl a) (by omega)
    unfold attemptsRun
    rw [ha, ih (a + 1) (fun i h1 h2 => h i (by omega) (by omega))]

/-- If every attempt in the window fails and the final attempt is a
rejection, the loop trace contains the final ERROR-level rejection log
carrying the rejection reason. -/
lemma requestLoop_final_reject_mem (sess : SessionModel) (args : RequestArgs)
    (retries : Int) :
    ∀ (f a : Nat) (u : Option String) (r : Response) (m : Option String),
      1 ≤ f →
      (∀ i, a ≤ i → i < a + f → attemptFails sess args i = true) →
      ¬ (((a + f - 1 : Nat) : Int) < retries) →
      sess.sendOutcome (a + f - 1) = SendOutcome.ok r →
      evalCallback args.responseOkCallback r = (false, m) →
      Event.logRejected Level.ERROR (sess.prepUrl (a + f - 1)) (msgSuffix m) "" ∈
        (requestLoop sess args retries f a u).events := by
  intro f
  induction f with
  | zero => intro a u r m h1; omega
  | succ f ih =>
    intro a u r m _ hfails hnlt hok hcb
    rcases Nat.eq_zero_or_pos f with hf | hf
    · subst hf
      have hL : a + (0 + 1) - 1 = a := by omega
      rw [hL] at hnlt hok ⊢
      simp only [requestLoop, hok, hcb, Bool.false_eq_true, if_false, if_neg hnlt]
      simp [hcb, List.mem_append]
    · have hL : a + (f + 1) - 1 = (a + 1) + f - 1 := by omega
      rw [hL] at hnlt hok ⊢
      have ha : attemptFails sess args a = true := hfails a (Nat.le_refl a) (by omega)
      have hrest := ih (a + 1) (some (sess.prepUrl a)) r m (by omega)
        (fun i h1 h2 => hfails i (by omega) (by omega)) hnlt hok hcb
      cases hs : sess.sendOutcome a with
      | exc e =>
        simp only [requestLoop, hs]
        simp only [List.mem_append, List.mem_cons, List.mem_singleton]
        tauto
      | ok r0 =>
        cases hc : (evalCallback args.responseOkCallback r0).1 with
        | true =>
          exfalso
          simp [attemptFails, hs, hc] at ha
        | false =>
          simp only [requestLoop, hs, hc, Bool.false_eq_true, if_false]
          simp only [List.mem_append, List.mem_cons, List.mem_singleton]
          tauto

/-- If every attempt in the window fails and the final attempt is a
transport error, the loop trace contains the final ERROR-level transport
log carrying the exception. -/
lemma requestLoop_final_exc_mem (sess : SessionModel) (args : RequestArgs)
    (retries : Int) :
    ∀ (f a : Nat) (u : Option String) (e : String),
      1 ≤ f →
      (∀ i, a ≤ i → i < a + f → attemptFails sess args i = true) →
      ¬ (((a + f - 1 : Nat) : Int) < retries) →
      sess.sendOutcome (a + f - 1) = SendOutcome.exc e →
      Event.logRequestError Level.ERROR (sess.prepUrl (a + f - 1)) e "" ∈
        (requestLoop sess args retries f a u).events := by
  intro f
  induction f with
  | zero => intro a u e h1; omega
  | succ f ih =>
    intro a u e _ hfails hnlt hexc
    rcases Nat.eq_zero_or_pos f with hf | hf
    · subst hf
      have hL : a + (0 + 1) - 1 = a := by omega
      rw [hL] at hnlt hexc ⊢
      simp only [requestLoop, hexc, if_neg hnlt]
      simp [List.mem_append]
    · have hL : a + (f + 1) - 1 = (a + 1) + f - 1 := by omega
      rw [hL] at hnlt hexc ⊢
      have ha : attemptFails sess args a = true := hfails a (Nat.le_refl a) (by omega)
      have hrest := ih (a + 1) (some (sess.prepUrl a)) e (by omega)
        (fun i h1 h2 => hfails i (by omega) (by omega)) hnlt hexc
      cases hs : sess.sendOutcome a with
      | exc e0 =>
        simp only [requestLoop, hs]
        simp only [List.mem_append, List.mem_cons, List.mem_singleton]
        tauto
      | ok r0 =>
        cases hc : (evalCallback args.responseOkCallback r0).1 with
        | true =>
          exfalso
          simp [attemptFails, hs, hc] at ha
        | false =>
          simp only [requestLoop, hs, hc, Bool.false_eq_true, if_false]
          simp only [List.mem_append, List.mem_cons, List.mem_singleton]
          tauto

/-! ## Characterisation of `_request` -/

lemma toNat_retries (n : Nat) : (((n : Int)) + 1).toNat = n + 1 := by omega

/-- The trace of `_request` is the loop trace plus a possible trailing
fatal log, which contributes no prepare, send or sleep events. -/
lemma request_events_split (retries : Int) (sess : SessionModel) (args : RequestArgs) :
    ∃ tail, («_request» retries sess args).2 =
      (requestLoop sess args retries (retries + 1).toNat 0 none).events ++ tail ∧
      ssProj tail = [] ∧ psProj tail = [] ∧ sleepList tail = [] ∧ sendCount tail = 0 := by
  cases hexit : (requestLoop sess args retries (retries + 1).toNat 0 none).exit with
  | returned r =>
    refine ⟨[], ?_, rfl, rfl, rfl, rfl⟩
    simp only [«_request», hexit, List.append_nil]
  | completed =>
    cases hru : (requestLoop sess args retries (retries + 1).toNat 0 none).reqUrl with
    | none =>
      refine ⟨[], ?_, rfl, rfl, rfl, rfl⟩
      simp only [«_request», hexit, hru, List.append_nil]
    | some url =>
      refine ⟨[Event.logFatal (mkFailMsg retries url)], ?_, rfl, rfl, rfl, rfl⟩
      simp only [«_request», hexit, hru]
  | broke =>
    refine ⟨[], ?_, rfl, rfl, rfl, rfl⟩
    simp only [«_request», hexit, List.append_nil]

/-- `_request` on an all-failing environment: the result and full trace. -/
lemma request_allFail_eq (n : Nat) (sess : SessionModel) (args : RequestArgs)
    (h : ∀ i, i ≤ n → attemptFails sess args i = true) :
    «_request» (n : Int) sess args =
      (ReqResult.scraperException (mkFailMsg (n : Int) (sess.prepUrl n)),
       (requestLoop sess args (n : Int) (n + 1) 0 none).events
         ++ [Event.logFatal (mkFailMsg (n : Int) (sess.prepUrl n))]) := by
  have hall : ∀ i, 0 ≤ i → i < 0 + (n + 1) → attemptFails sess args i = true :=
    fun i _ h2 => h i (by omega)
  have hc := requestLoop_allFail sess args (n : Int) (n + 1) 0 none hall
  have hru : (requestLoop sess args (n : Int) (n + 1) 0 none).reqUrl =
      some (sess.prepUrl n) := by
    rw [hc.2, if_neg (by omega)]
    congr 2
    omega
  simp only [«_request», toNat_retries, hc.1, hru]

/-- `_request` when the failing prefix ends in an accepted attempt `k`:
the result is that response and the loop consumed `k + 1` attempts. -/
lemma request_success_eq (n : Nat) (sess : SessionModel) (args : RequestArgs)
    (k : Nat) (r : Response) (hk : k ≤ n)
    (hf : ∀ i, i < k → attemptFails sess args i = true)
    (hok : sess.sendOutcome k = SendOutcome.ok r)
    (hacc : (evalCallback args.responseOkCallback r).1 = true) :
    «_request» (n : Int) sess args =
      (ReqResult.response r, (requestLoop sess args (n : Int) (n + 1) 0 none).events) ∧
    attemptsRun sess args 0 (n + 1) = k + 1 := by
  have hs := requestLoop_success sess args (n : Int) (n + 1) 0 none k r (by omega)
    (by omega) (fun i _ h2 => hf i h2) hok hacc
  constructor
  · simp only [«_request», toNat_retries, hs.1]
  · rw [hs.2]
    omega

/-- `_request` with a negative retry count: the loop body never runs and
the exhaustion branch hits the unbound local `req`. -/
lemma request_neg (retries : Int) (h : retries < 0) (sess : SessionModel)
    (args : RequestArgs) :
    «_request» retries sess args = (ReqResult.nameError, []) := by
  have htn : (retries + 1).toNat = 0 := by omega
  simp only [«_request», htn, requestLoop]

/-- Send/sleep skeleton of the full `_request` trace. -/
lemma request_ssProj (n : Nat) (sess : SessionModel) (args : RequestArgs) :
    ssProj («_request» (n : Int) sess args).2 =
      ssShape 0 (attemptsRun sess args 0 (n + 1)) := by
  rcases request_events_split (n : Int) sess args with ⟨tail, hev, hss, _, _, _⟩
  rw [hev, ssProj_append, hss, List.append_nil, toNat_retries]
  exact requestLoop_ssProj sess args (n : Int) (n + 1) 0 none (by push_cast; omega)

/-- Prepare/send skeleton of the full `_request` trace, for any retry
count. -/
lemma request_psProj (retries : Int) (sess : SessionModel) (args : RequestArgs) :
    psProj («_request» retries sess args).2 =
      psShape sess 0 (attemptsRun sess args 0 ((retries + 1).toNat)) := by
  rcases request_events_split retries sess args with ⟨tail, hev, _, hps, _, _⟩
  rw [hev, psProj_append, hps, List.append_nil]
  exact requestLoop_psProj sess args retries ((retries + 1).toNat) 0 none

/-- The send count of the full `_request` trace. -/
lemma request_sendCount (retries : Int) (sess : SessionModel) (args : RequestArgs) :
    sendCount («_request» retries sess args).2 =
      attemptsRun sess args 0 ((retries + 1).toNat) := by
  rcases request_events_split retries sess args with ⟨tail, hev, _, _, _, hsc⟩
  rw [hev, sendCount_append, hsc, Nat.add_zero]
  exact requestLoop_sendCount sess args retries ((retries + 1).toNat) 0 none

/-- The sleeps of the full `_request` trace: exponential backoff `2^i`
after each non-final attempt. -/
lemma request_sleepList (n : Nat) (sess : SessionModel) (args : RequestArgs) :
    sleepList («_request» (n : Int) sess args).2 =
      (List.range (attemptsRun sess args 0 (n + 1) - 1)).map (fun i => 2 ^ i) := by
  rw [sleepList_eq_ssProj, request_ssProj, ssShape_sleeps, List.range_eq_range']

/-! ## Characterisation of the cached entity accessor -/

/-- Reading the entity property in a cached state touches neither the
cache nor the resolver. -/
lemma entityReadN_cached (resolve : Nat → Except String (Option Nat)) (v : Option Nat) :
    ∀ (n : Nat) (s : EntityState), s.entityCache = some v →
      entityReadN resolve n s = (List.replicate n (Except.ok v), s) := by
  intro n
  induction n with
  | zero => intro s _; simp [entityReadN]
  | succ n ih =>
    intro s h
    simp only [entityReadN, entityRead, h]
    rw [ih s h]
    simp [List.replicate_succ]

/-! ## Claim theorems -/

/-- C1: for every retry count `n ≥ 0`, if every attempt fails (by
transport error or by predicate rejection), `_request` performs exactly
`n + 1` send attempts — hence at least one and at most `n + 1` — and then
raises `ScraperException` (the exhausted-retries condition). -/
theorem C1_all_fail_makes_n_plus_one_attempts (n : Nat) (sess : SessionModel)
    (args : RequestArgs)
    (h : ∀ i, i ≤ n → attemptFails sess args i = true) :
    sendCount («_request» (n : Int) sess args).2 = n + 1 ∧
    ∃ msg, («_request» (n : Int) sess args).1 = ReqResult.scraperException msg := by
  constructor
  · rw [request_sendCount, toNat_retries]
    exact attemptsRun_allFail sess args (n + 1) 0 (fun i _ h2 => h i (by omega))
  · refine ⟨mkFailMsg (n : Int) (sess.prepUrl n), ?_⟩
    rw [request_allFail_eq n sess args h]

/-- Witness for C1 at `n = 2` with every send raising a transport
error. -/
theorem C1_all_fail_makes_n_plus_one_attempts_witness :
    sendCount («_request» ((2 : Nat) : Int) sessExcAll argsPlain).2 = 3 ∧
    ∃ msg, («_request» ((2 : Nat) : Int) sessExcAll argsPlain).1 =
      ReqResult.scraperException msg :=
  C1_all_fail_makes_n_plus_one_attempts 2 sessExcAll argsPlain (by decide)

/-- C2: for every retry count `n` and attempt index `k ≤ n`, if the sends
before `k` all fail, the send on attempt `k` succeeds and the accept
predicate accepts it (`evalCallback` yields `(True, None)` when no
predicate is supplied, i.e. absence means always accepted), then
`_request` makes exactly `k + 1` attempts, returns that response, and
performs no further attempts and no further sleeps (exactly the `k`
backoff sleeps between the failed attempts occur). -/
theorem C2_accepted_attempt_returns_immediately (n k : Nat) (sess : SessionModel)
    (args : RequestArgs) (r : Response) (hk : k ≤ n)
    (hf : ∀ i, i < k → attemptFails sess args i = true)
    (hok : sess.sendOutcome k = SendOutcome.ok r)
    (hacc : (evalCallback args.responseOkCallback r).1 = true) :
    («_request» (n : Int) sess args).1 = ReqResult.response r ∧
    sendCount («_request» (n : Int) sess args).2 = k + 1 ∧
    sleepList («_request» (n : Int) sess args).2 =
      (List.range k).map (fun i => 2 ^ i) := by
  have h := request_success_eq n sess args k r hk hf hok hacc
  refine ⟨?_, ?_, ?_⟩
  · rw [h.1]
  · rw [request_sendCount, toNat_retries, h.2]
  · rw [request_sleepList, h.2]
    simp

/-- Witness for C2 at `n = 3`, `k = 2`: two transport errors then an
accepted response, with no predicate supplied. -/
theorem C2_accepted_attempt_returns_immediately_witness :
    («_request» ((3 : Nat) : Int) (sessOkAt 2) argsPlain).1 =
      ReqResult.response ⟨42⟩ ∧
    sendCount («_request» ((3 : Nat) : Int) (sessOkAt 2) argsPlain).2 = 3 ∧
    sleepList («_request» ((3 : Nat) : Int) (sessOkAt 2) argsPlain).2 =
      (List.range 2).map (fun i => 2 ^ i) :=
  C2_accepted_attempt_returns_immediately 3 2 (sessOkAt 2) argsPlain ⟨42⟩
    (by decide) (by decide) (by decide) (by decide)

/-- C3: the sleeps of any `_request` run sit exactly between consecutive
send attempts: the send/sleep skeleton of the trace is the `ssShape`
interleaving, in which the sleep between attempts `i` and `i + 1` lasts
exactly `2 ^ i` seconds (1s before attempt 1, 2s before attempt 2, 4s
before attempt 3, ...), and no sleep precedes the first send or follows
the last; consequently the sleep durations are `[2^0, ..., 2^(a-2)]` for
`a` attempts performed. -/
theorem C3_exponential_backoff_between_attempts (n : Nat) (sess : SessionModel)
    (args : RequestArgs) :
    ssProj («_request» (n : Int) sess args).2 =
      ssShape 0 (attemptsRun sess args 0 (n + 1)) ∧
    sleepList («_request» (n : Int) sess args).2 =
      (List.range (attemptsRun sess args 0 (n + 1) - 1)).map (fun i => 2 ^ i) :=
  ⟨request_ssProj n sess args, request_sleepList n sess args⟩

/-- C4: if every attempt fails, `_request` raises `ScraperException`
whose message carries the final attempt's URL and the total attempt count
`n + 1` (the `mkFailMsg` string), and for any non-negative retry count
this is the only error the operation raises to its caller: the result is
always either an accepted response or that `ScraperException` — every
per-attempt transport failure and rejection is absorbed internally,
observable only through the log events of the trace. -/
theorem C4_only_scraper_exception_escapes :
    (∀ (n : Nat) (sess : SessionModel) (args : RequestArgs),
      (∀ i, i ≤ n → attemptFails sess args i = true) →
      («_request» (n : Int) sess args).1 =
        ReqResult.scraperException (mkFailMsg (n : Int) (sess.prepUrl n))) ∧
    (∀ (retries : Int) (sess : SessionModel) (args : RequestArgs), 0 ≤ retries →
      (∃ r, («_request» retries sess args).1 = ReqResult.response r) ∨
      (∃ m, («_request» retries sess args).1 = ReqResult.scraperException m)) := by
  constructor
  · intro n sess args h
    rw [request_allFail_eq n sess args h]
  · intro retries sess args hr
    have hf1 : 1 ≤ (retries + 1).toNat := by omega
    rcases requestLoop_exit_cases sess args retries ((retries + 1).toNat) 0 none with
      ⟨r, hex⟩ | hex
    · left
      exact ⟨r, by simp only [«_request», hex]⟩
    · right
      have hru := requestLoop_reqUrl_isSome sess args retries ((retries + 1).toNat) 0
        none (Or.inl hf1)
      rcases Option.isSome_iff_exists.mp hru with ⟨url, hurl⟩
      exact ⟨mkFailMsg retries url, by simp only [«_request», hex, hurl]⟩

/-- Witness for C4: exhaustion at `n = 1` carries URL and count; at
`retries = 0` the result is a response or a `ScraperException`. -/
theorem C4_only_scraper_exception_escapes_witness :
    («_request» ((1 : Nat) : Int) sessExcAll argsPlain).1 =
      ReqResult.scraperException (mkFailMsg ((1 : Nat) : Int) (sessExcAll.prepUrl 1)) ∧
    ((∃ r, («_request» (0 : Int) sessOkAll argsPlain).1 = ReqResult.response r) ∨
     (∃ m, («_request» (0 : Int) sessOkAll argsPlain).1 =
       ReqResult.scraperException m)) :=
  ⟨C4_only_scraper_exception_escapes.1 1 sessExcAll argsPlain (by decide),
   C4_only_scraper_exception_escapes.2 0 sessOkAll argsPlain (by decide)⟩

/-- C5: a rejection by the accept predicate is treated identically to a
transport failure for retry counting and backoff (the attempt count and
the sleep sequence depend only on which attempts fail, not on how), while
at exhaustion the logged context differs in content between the two: a
final rejection contributes an ERROR-level rejection log carrying the
rejection reason (while raising the same `ScraperException`), and a final
transport failure contributes an ERROR-level transport log carrying the
exception instead. -/
theorem C5_rejection_counts_like_transport_failure :
    (∀ (n : Nat) (sess1 : SessionModel) (args1 : RequestArgs)
        (sess2 : SessionModel) (args2 : RequestArgs),
      (∀ i, i ≤ n → attemptFails sess1 args1 i = attemptFails sess2 args2 i) →
      sendCount («_request» (n : Int) sess1 args1).2 =
        sendCount («_request» (n : Int) sess2 args2).2 ∧
      sleepList («_request» (n : Int) sess1 args1).2 =
        sleepList («_request» (n : Int) sess2 args2).2) ∧
    (∀ (n : Nat) (sess : SessionModel) (args : RequestArgs) (r : Response)
        (m : Option String),
      (∀ i, i ≤ n → attemptFails sess args i = true) →
      sess.sendOutcome n = SendOutcome.ok r →
      evalCallback args.responseOkCallback r = (false, m) →
      Event.logRejected Level.ERROR (sess.prepUrl n) (msgSuffix m) "" ∈
        («_request» (n : Int) sess args).2 ∧
      («_request» (n : Int) sess args).1 =
        ReqResult.scraperException (mkFailMsg (n : Int) (sess.prepUrl n))) ∧
    (∀ (n : Nat) (sess : SessionModel) (args : RequestArgs) (e : String),
      (∀ i, i ≤ n → attemptFails sess args i = true) →
      sess.sendOutcome n = SendOutcome.exc e →
      Event.logRequestError Level.ERROR (sess.prepUrl n) e "" ∈
        («_request» (n : Int) sess args).2) := by
  refine ⟨?_, ?_, ?_⟩
  · intro n sess1 args1 sess2 args2 hcong
    have hrun : attemptsRun sess1 args1 0 (n + 1) = attemptsRun sess2 args2 0 (n + 1) :=
      attemptsRun_congr sess1 args1 sess2 args2 (n + 1) 0
        (fun i _ h2 => hcong i (by omega))
    constructor
    · rw [request_sendCount, request_sendCount, toNat_retries, hrun]
    · rw [request_sleepList, request_sleepList, hrun]
  · intro n sess args r m h hok hcb
    have hL : 0 + (n + 1) - 1 = n := by omega
    have hmem := requestLoop_final_reject_mem sess args (n : Int) (n + 1) 0 none r m
      (by omega) (fun i _ h2 => h i (by omega)) (by rw [hL]; omega)
      (by rw [hL]; exact hok) hcb
    rw [hL] at hmem
    constructor
    · rcases request_events_split (n : Int) sess args with ⟨tail, hev, _, _, _, _⟩
      rw [hev, toNat_retries]
      exact List.mem_append_left tail hmem
    · rw [request_allFail_eq n sess args h]
  · intro n sess args e h hexc
    have hL : 0 + (n + 1) - 1 = n := by omega
    have hmem := requestLoop_final_exc_mem sess args (n : Int) (n + 1) 0 none e
      (by omega) (fun i _ h2 => h i (by omega)) (by rw [hL]; omega)
      (by rw [hL]; exact hexc)
    rw [hL] at hmem
    rcases request_events_split (n : Int) sess args with ⟨tail, hev, _, _, _, _⟩
    rw [hev, toNat_retries]
    exact List.mem_append_left tail hmem

/-- Witness for C5: a transport-failing run and a rejecting run with the
same failure pattern have the same attempt count and sleeps; the
rejecting exhaustion logs the reason at ERROR; the transport exhaustion
logs the exception at ERROR. -/
theorem C5_rejection_counts_like_transport_failure_witness :
    (sendCount («_request» ((1 : Nat) : Int) sessExcAll argsPlain).2 =
       sendCount («_request» ((1 : Nat) : Int) sessOkAll argsRejectAll).2 ∧
     sleepList («_request» ((1 : Nat) : Int) sessExcAll argsPlain).2 =
       sleepList («_request» ((1 : Nat) : Int) sessOkAll argsRejectAll).2) ∧
    (Event.logRejected Level.ERROR (sessOkAll.prepUrl 1)
       (msgSuffix (some "rate limited")) "" ∈
       («_request» ((1 : Nat) : Int) sessOkAll argsRejectAll).2 ∧
     («_request» ((1 : Nat) : Int) sessOkAll argsRejectAll).1 =
       ReqResult.scraperException (mkFailMsg ((1 : Nat) : Int) (sessOkAll.prepUrl 1))) ∧
    Event.logRequestError Level.ERROR (sessExcAll.prepUrl 1) "ConnectionError" "" ∈
      («_request» ((1 : Nat) : Int) sessExcAll argsPlain).2 :=
  ⟨C5_rejection_counts_like_transport_failure.1 1 sessExcAll argsPlain sessOkAll
     argsRejectAll (by decide),
   C5_rejection_counts_like_transport_failure.2.1 1 sessOkAll argsRejectAll ⟨7⟩
     (some "rate limited") (by decide) (by decide) (by decide),
   C5_rejection_counts_like_transport_failure.2.2 1 sessExcAll argsPlain
     "ConnectionError" (by decide) (by decide)⟩

/-- C6: reading the `entity` property `N ≥ 1` times on the same `Scraper`
instance triggers exactly one call to the underlying `_get_entity`
resolver (on the first read, when it succeeds with value `v`), and all
`N` reads return the identical cached value. -/
theorem C6_entity_resolved_once_and_cached
    (resolve : Nat → Except String (Option Nat)) (v : Option Nat) (N : Nat)
    (hN : 1 ≤ N) (hres : resolve 0 = Except.ok v) :
    entityReadN resolve N initEntityState =
      (List.replicate N (Except.ok v), ⟨some v, 1⟩) := by
  rcases Nat.exists_eq_succ_of_ne_zero (by omega : N ≠ 0) with ⟨N', rfl⟩
  have hfirst : entityRead resolve initEntityState = (Except.ok v, ⟨some v, 1⟩) := by
    simp [entityRead, initEntityState, hres]
  simp only [entityReadN, hfirst]
  rw [entityReadN_cached resolve v N' ⟨some v, 1⟩ rfl]
  simp [List.replicate_succ]

/-- Witness for C6 at `N = 3` with a resolver returning the entity `5`. -/
theorem C6_entity_resolved_once_and_cached_witness :
    entityReadN (fun _ => Except.ok (some 5)) 3 initEntityState =
      (List.replicate 3 (Except.ok (some 5)), ⟨some (some 5), 1⟩) :=
  C6_entity_resolved_once_and_cached (fun _ => Except.ok (some 5)) (some 5) 3
    (by decide) rfl

/-- C7: on every attempt of the retry loop (for any retry count, negative
included), the outgoing request is freshly derived against the current
session state: the prepare/send projection of the trace is the `psShape`
skeleton, in which each send of attempt `i` is immediately preceded by
exactly one `prepare_request` for attempt `i` carrying the URL the
session produces at that point — a prepared request is never reused
across attempts. -/
theorem C7_request_prepared_freshly_each_attempt (retries : Int)
    (sess : SessionModel) (args : RequestArgs) :
    psProj («_request» retries sess args).2 =
      psShape sess 0 (attemptsRun sess args 0 ((retries + 1).toNat)) :=
  request_psProj retries sess args

/-- C8: the trailing `raise RuntimeError` of line 123 is unreachable: no
execution of `_request` produces it (the loop body contains no `break`,
so the `for`/`else` clause always runs on loop completion and itself
raises), and for every non-negative retry count control either returns an
accepted response from inside the loop or raises `ScraperException` from
the `else` clause. -/
theorem C8_trailing_raise_unreachable (retries : Int) (sess : SessionModel)
    (args : RequestArgs) :
    (∀ m, («_request» retries sess args).1 ≠ ReqResult.runtimeError m) ∧
    (0 ≤ retries →
      (∃ r, («_request» retries sess args).1 = ReqResult.response r) ∨
      (∃ m, («_request» retries sess args).1 =
        ReqResult.scraperException m)) := by
  constructor
  · intro m
    rcases requestLoop_exit_cases sess args retries ((retries + 1).toNat) 0 none with
      ⟨r, hex⟩ | hex
    · simp only [«_request», hex]
      simp
    · cases hru : (requestLoop sess args retries ((retries + 1).toNat) 0 none).reqUrl
      all_goals simp only [«_request», hex, hru]
      all_goals simp
  · intro hr
    have hf1 : 1 ≤ (retries + 1).toNat := by omega
    rcases requestLoop_exit_cases sess args retries ((retries + 1).toNat) 0 none with
      ⟨r, hex⟩ | hex
    · left
      exact ⟨r, by simp only [«_request», hex]⟩
    · right
      have hru := requestLoop_reqUrl_isSome sess args retries ((retries + 1).toNat) 0
        none (Or.inl hf1)
      rcases Option.isSome_iff_exists.mp hru with ⟨url, hurl⟩
      exact ⟨mkFailMsg retries url, by simp only [«_request», hex, hurl]⟩

/-- Witness for C8 at `retries = 0` on an all-failing session. -/
theorem C8_trailing_raise_unreachable_witness :
    («_request» (0 : Int) sessExcAll argsPlain).1 ≠
      ReqResult.runtimeError "Reached unreachable code" ∧
    ((∃ r, («_request» (0 : Int) sessExcAll argsPlain).1 = ReqResult.response r) ∨
     (∃ m, («_request» (0 : Int) sessExcAll argsPlain).1 =
       ReqResult.scraperException m)) :=
  ⟨(C8_trailing_raise_unreachable 0 sessExcAll argsPlain).1 "Reached unreachable code",
   (C8_trailing_raise_unreachable 0 sessExcAll argsPlain).2 (by decide)⟩

/-- C9: with `retries ≥ 0` the exhaustion branch runs after at least one
iteration, so the local `req` it reads is defined and the branch raises
`ScraperException` with the final URL; for a `Scraper` constructed with a
negative retries value the loop body never runs, and `_request` fails
with the unbound-local (`NameError`) condition in the exhaustion branch
instead of raising `ScraperException` — emitting no events at all. -/
theorem C9_negative_retries_unbound_local :
    (∀ (retries : Int) (sess : SessionModel) (args : RequestArgs), retries < 0 →
      «_request» retries sess args = (ReqResult.nameError, [])) ∧
    (∀ (n : Nat) (sess : SessionModel) (args : RequestArgs),
      (∀ i, i ≤ n → attemptFails sess args i = true) →
      («_request» (n : Int) sess args).1 =
        ReqResult.scraperException (mkFailMsg (n : Int) (sess.prepUrl n))) := by
  constructor
  · intro retries sess args h
    exact request_neg retries h sess args
  · intro n sess args h
    rw [request_allFail_eq n sess args h]

/-- Witness for C9 at `retries = -1` (NameError, empty trace) and `n = 1`
(ScraperException with the final URL). -/
theorem C9_negative_retries_unbound_local_witness :
    «_request» (-1 : Int) sessExcAll argsPlain = (ReqResult.nameError, []) ∧
    («_request» ((1 : Nat) : Int) sessExcAll argsPlain).1 =
      ReqResult.scraperException (mkFailMsg ((1 : Nat) : Int) (sessExcAll.prepUrl 1)) :=
  ⟨C9_negative_retries_unbound_local.1 (-1) sessExcAll argsPlain (by decide),
   C9_negative_retries_unbound_local.2 1 sessExcAll argsPlain (by decide)⟩

/-- C10: a failed entity resolution is not cached — if the resolver
raises on the first read, the error propagates, nothing is stored, and a
second read invokes the resolver again (two resolver calls after two
reads); and a `Scraper` subclass that does not override `_get_entity`
returns the absent value `None` on every read of the `entity`
property. -/
theorem C10_failed_resolution_not_cached :
    (∀ (resolve : Nat → Except String (Option Nat)) (e : String),
      resolve 0 = Except.error e →
      entityRead resolve initEntityState = (Except.error e, ⟨none, 1⟩) ∧
      (entityReadN resolve 2 initEntityState).2.resolveCalls = 2) ∧
    (∀ N : Nat, (entityReadN «_get_entity» N initEntityState).1 =
      List.replicate N (Except.ok none)) := by
  constructor
  · intro resolve e h
    have hfirst : entityRead resolve initEntityState = (Except.error e, ⟨none, 1⟩) := by
      simp [entityRead, initEntityState, h]
    refine ⟨hfirst, ?_⟩
    simp only [entityReadN, hfirst]
    cases h1 : resolve 1 <;> simp [entityRead, entityReadN, h1]
  · intro N
    rcases N with _ | N'
    · simp [entityReadN]
    · have hfirst : entityRead «_get_entity» initEntityState =
          (Except.ok none, ⟨some none, 1⟩) := by
        simp [entityRead, initEntityState, «_get_entity»]
      simp only [entityReadN, hfirst]
      rw [entityReadN_cached «_get_entity» none N' ⟨some none, 1⟩ rfl]
      simp [List.replicate_succ]

/-- Witness for C10: a resolver failing on its first call propagates the
error uncached and is called again on the second read; the default
resolver yields `None` on all of three reads. -/
theorem C10_failed_resolution_not_cached_witness :
    (entityRead (fun _ => Except.error "boom") initEntityState =
       (Except.error "boom", ⟨none, 1⟩) ∧
     (entityReadN (fun _ => Except.error "boom") 2 initEntityState).2.resolveCalls = 2) ∧
    (entityReadN «_get_entity» 3 initEntityState).1 =
      List.replicate 3 (Except.ok none) :=
  ⟨C10_failed_resolution_not_cached.1 (fun _ => Except.error "boom") "boom" rfl,
   C10_failed_resolution_not_cached.2 3⟩

end Snscrape
